import Mathlib

/-!
Verification of the lfs.py large-file store.

This file gives a shallow embedding of the core of lfs.py (class LFSManager):
size classification, the store-and-link engine, the directory scanner, the
garbage collector, manifest persistence and the safe-delete helper, together
with theorems settling the stated claims about them.

Modelling conventions:
- A filesystem path is a list of components (the root directory is the empty
  list).  File contents are lists of bytes; the filesystem is an association
  list from path to content.
- SHA-256 is modelled by an arbitrary function hashFn from contents to hex
  strings; every claim proved here only needs that hashing is a function of
  the content (identical bytes give identical digests).
- I/O outcomes that depend on the host (whether a copy, symlink or delete
  call succeeds, whether a path exists) are oracle parameters.  The Windows
  path-length retry ladders collapse in the model: reading a file succeeds
  exactly when the file exists.
-/

namespace LFS

/-- Byte content of a file. -/
abbrev Content := List Nat

/-- A filesystem path, as its list of components ([] is the filesystem root). -/
abbrev Path := List String

/-- The filesystem: an association list from path to file content. -/
abbrev FS := List (Path × Content)

/-- Reading a file: content stored at the first occurrence of the path. -/
def fsGet : FS → Path → Option Content
  | [], _ => none
  | kv :: rest, p => if kv.1 == p then some kv.2 else fsGet rest p

/-- Writing a file: replace the first occurrence of the path, or append. -/
def fsSet : FS → Path → Content → FS
  | [], p, c => [(p, c)]
  | kv :: rest, p, c => if kv.1 == p then (p, c) :: rest else kv :: fsSet rest p c

/-- One manifest entry, the shape written to lfs_assets.json by
store_and_link_file (lfs.py lines 475-481). -/
structure BlobEntry where
  hash : String
  size : Nat
  storage_path : Path
  source_paths : List Path
  link_paths : List Path
deriving DecidableEq

/-- The manifest: fingerprint key to blob entry, in insertion order
(a Python dict preserves insertion order). -/
abbrev Manifest := List (String × BlobEntry)

/-- The size classification table self.size_categories (lfs.py lines 67-74).
The float inf upper bound of the last tier is modelled by none. -/
def size_categories : List (Nat × Option Nat × String) :=
  [(1*1024*1024, some (10*1024*1024), "1M-10M"),
   (10*1024*1024, some (100*1024*1024), "10M-100M"),
   (100*1024*1024, some (500*1024*1024), "100M-500M"),
   (500*1024*1024, some (1024*1024*1024), "500M-1G"),
   (1024*1024*1024, some (5*1024*1024*1024), "1G-5G"),
   (5*1024*1024*1024, none, "5G-above")]

/-- The membership test min_size <= size < max_size of the loop body of
_get_size_category (lfs.py line 339). -/
def inCategory (t : Nat × Option Nat × String) (size : Nat) : Bool :=
  decide (t.1 ≤ size) && (match t.2.1 with
    | some mx => decide (size < mx)
    | none => true)

/-- _get_size_category (lfs.py lines 332-341): first matching tier,
with the default category for sizes matching no tier. -/
def get_size_category (size : Nat) : String :=
  match size_categories.find? (fun t => inCategory t size) with
  | some t => t.2.2
  | none => "5G-above"

/-- Membership test of a fingerprint key in the manifest (Python: key in manifest). -/
def manifestHasKey (m : Manifest) (k : String) : Bool :=
  m.any (fun kv => kv.1 == k)

/-- Membership test of a path in a list of paths (Python: path in list). -/
def memPath (l : List Path) (p : Path) : Bool :=
  l.any (fun q => q == p)

/-- The link-path update of lfs.py lines 490-492: append the path to
link_paths unless it is already recorded. -/
def addLink (e : BlobEntry) (p : Path) : BlobEntry :=
  if memPath e.link_paths p then e
  else ⟨e.hash, e.size, e.storage_path, e.source_paths, e.link_paths ++ [p]⟩

/-- In-place mutation of the entry at the given key, adding a link path. -/
def manifestAddLink (m : Manifest) (k : String) (p : Path) : Manifest :=
  m.map (fun kv => if kv.1 == k then (kv.1, addLink kv.2 p) else kv)

/-- Result of one call to store_and_link_file.  ok is the return value of the
Python function; stored_new records which of the two progress messages of
lfs.py lines 467-471 was printed (whether the blob was copied into the store
on this call). -/
structure StoreResult where
  fs : FS
  manifest : Manifest
  ok : Bool
  stored_new : Bool
deriving DecidableEq

/-- store_and_link_file (lfs.py lines 443-497), for one candidate path
against the filesystem fs and the in-memory manifest.

Oracles: copyOk is whether the _safe_copy call into the store would succeed
if reached, linkOk whether _safe_link (symlink, or its copy fallback) would
succeed.  In the model, hashing succeeds exactly when the file exists (the
retries in _get_file_hash are Windows path-length shims); a missing file
makes _get_file_hash raise, which the enclosing except turns into a False
return with nothing mutated.  On a successful _safe_link the path afterwards
resolves to the blob's bytes.  Exceptions from _safe_copy or _safe_link are
caught at line 495: the function returns False and every manifest mutation
already performed is kept (the dict is shared with the caller). -/
def store_and_link_file (hashFn : Content → String) (lfs_base : Path)
    (copyOk linkOk : Bool) (fs : FS) (manifest : Manifest) (file_path : Path) :
    StoreResult :=
  match fsGet fs file_path with
  | none => ⟨fs, manifest, false, false⟩
  | some content =>
    let file_hash := hashFn content
    let file_size := content.length
    let category := get_size_category file_size
    let storage_path := lfs_base ++ ["objects", category, file_hash]
    let file_key := "sha256:" ++ file_hash
    let is_new_file := (fsGet fs storage_path).isNone
    if is_new_file && !copyOk then
      ⟨fs, manifest, false, true⟩
    else
      let fs1 := if is_new_file then fsSet fs storage_path content else fs
      let manifest1 :=
        if manifestHasKey manifest file_key then manifest
        else manifest ++
          [(file_key, ⟨file_hash, file_size, ["objects", category, file_hash],
                       [file_path], []⟩)]
      if linkOk then
        let fs2 := match fsGet fs1 storage_path with
          | some blob => fsSet fs1 file_path blob
          | none => fs1
        ⟨fs2, manifestAddLink manifest1 file_key file_path, true, is_new_file⟩
      else
        ⟨fs1, manifest1, false, is_new_file⟩

/-- One directory entry yielded by Path.rglob in scan_large_files, with the
attributes the loop body inspects: whether it is a regular file (is_file,
which follows symlinks), whether it is a symlink, and its stat size. -/
structure ScanEntry where
  path : Path
  isFile : Bool
  isSymlink : Bool
  size : Nat
deriving DecidableEq

/-- The ancestors file_path.parents of a path: all strict prefixes, from the
filesystem root [] up to the immediate parent directory. -/
def pathParents (p : Path) : List Path :=
  (List.range p.length).map (fun k => p.take k)

/-- The per-entry decision of the scan loop body (lfs.py lines 384-427):
skip if any ancestor directory contains lfs_assets.json; keep only regular
files; skip symlinks; require the size threshold; on Windows additionally
skip when the dir listing of the parent shows a SYMLINK or JUNCTION entry
(winDirHasLink is the oracle for that subprocess output; a subprocess
failure there is treated as no-link, matching the except-pass).  The Unix
branch re-checks is_symlink, which is redundant after the earlier check. -/
def scanKeep (hasManifest : Path → Bool) (isWindows : Bool)
    (winDirHasLink : Path → Bool) (min_size : Nat) (e : ScanEntry) : Bool :=
  if (pathParents e.path).any hasManifest then false
  else if e.isFile then
    if e.isSymlink then false
    else if min_size ≤ e.size then
      if isWindows then !winDirHasLink e.path.dropLast
      else !e.isSymlink
    else false
  else false

/-- scan_large_files (lfs.py lines 360-440).  Raises FileNotFoundError when
the scan root does not exist; otherwise returns the kept paths in traversal
order.  Per-file OSError skips are not modelled (the oracle attributes are
assumed readable). -/
def scan_large_files (dirExists : Bool) (hasManifest : Path → Bool)
    (isWindows : Bool) (winDirHasLink : Path → Bool)
    (entries : List ScanEntry) (min_size : Nat) : Except String (List Path) :=
  if dirExists then
    Except.ok ((entries.filter
      (scanKeep hasManifest isWindows winDirHasLink min_size)).map ScanEntry.path)
  else Except.error "directory does not exist"

/-- JSON rendering of a list of strings. -/
def serializeStringList (l : List String) : String :=
  "[" ++ String.intercalate ", " (l.map (fun s => "\x22" ++ s ++ "\x22")) ++ "]"

/-- JSON rendering of one manifest entry, with the field order of its
creation in store_and_link_file (lfs.py lines 475-481).  Paths are rendered
with slash separators; the indent of json.dump is elided (whitespace only,
irrelevant to the claims proved here). -/
def serializeEntry (e : BlobEntry) : String :=
  "\x7b\x22hash\x22: \x22" ++ e.hash ++ "\x22, \x22size\x22: " ++ toString e.size
    ++ ", \x22storage_path\x22: \x22" ++ String.intercalate "/" e.storage_path
    ++ "\x22, \x22source_paths\x22: "
    ++ serializeStringList (e.source_paths.map (String.intercalate "/"))
    ++ ", \x22link_paths\x22: "
    ++ serializeStringList (e.link_paths.map (String.intercalate "/"))
    ++ "\x7d"

/-- JSON rendering of the whole manifest, keys in insertion order. -/
def serializeManifest (m : Manifest) : String :=
  "\x7b" ++ String.intercalate ", "
    (m.map (fun kv => "\x22" ++ kv.1 ++ "\x22: " ++ serializeEntry kv.2)) ++ "\x7d"

/-- The body of the try block of _save_manifest (lfs.py lines 120-124):
create the store root, then serialize the manifest into lfs_assets.json.
writeOk is the oracle for whether the filesystem write raises.  The payload
is the new content of the manifest file. -/
def save_manifest_attempt (writeOk : Bool) (m : Manifest) :
    Except String (Option String) :=
  if writeOk then Except.ok (some (serializeManifest m))
  else Except.error "failed to save manifest file"

/-- _save_manifest (lfs.py lines 115-126): the except clause catches every
failure, prints it and returns normally, so the function never raises; the
result is the manifest file content written, if any. -/
def save_manifest (writeOk : Bool) (m : Manifest) : Option String :=
  match save_manifest_attempt writeOk m with
  | Except.ok r => r
  | Except.error _ => none

/-- The successive contents of the manifest file observable by a concurrent
reader during _save_manifest (lfs.py lines 123-124): the previous content,
then the empty file left by the truncating open in w mode, then the full
serialization written by json.dump.  (json.dump additionally exposes proper
prefixes of the new content while streaming; the truncated state alone
already decides the claim about partial states.) -/
def save_manifest_file_states (old : String) (m : Manifest) : List String :=
  [old, "", serializeManifest m]

/-- process_files (lfs.py lines 499-537): scan, then ingest every candidate
in order against the one in-memory manifest, then save once.  A scan-root
FileNotFoundError propagates to the caller; per-file failures only keep the
processed counter unchanged.  Returns the final filesystem, the manifest
file content written by the final save (none if the save failed or no
candidates were found, in which case the function returns before saving),
the processed count and the candidate count. -/
def process_files (hashFn : Content → String) (lfs_base : Path)
    (copyOk linkOk : Path → Bool) (writeOk : Bool)
    (dirExists : Bool) (hasManifest : Path → Bool)
    (isWindows : Bool) (winDirHasLink : Path → Bool)
    (entries : List ScanEntry) (min_size : Nat)
    (fs : FS) (manifest0 : Manifest) :
    Except String (FS × Option String × Nat × Nat) :=
  match scan_large_files dirExists hasManifest isWindows winDirHasLink entries min_size with
  | Except.error e => Except.error e
  | Except.ok large_files =>
    if large_files.isEmpty then Except.ok (fs, none, 0, 0)
    else
      let r := large_files.foldl (fun acc fp =>
          let s := store_and_link_file hashFn lfs_base (copyOk fp) (linkOk fp)
            acc.1 acc.2.1 fp
          (s.fs, s.manifest, acc.2.2 + if s.ok then 1 else 0))
        ((fs, manifest0, 0) : FS × Manifest × Nat)
      Except.ok (r.1, save_manifest writeOk r.2.1, r.2.2, large_files.length)

/-- The link-validation pass of clean_repo (lfs.py lines 553-566): keep only
the link paths that still exist. -/
def pruneEntry (fs_exists : Path → Bool) (e : BlobEntry) : BlobEntry :=
  ⟨e.hash, e.size, e.storage_path, e.source_paths, e.link_paths.filter fs_exists⟩

/-- The deletion loop body of clean_repo (lfs.py lines 588-599), folded over
the cleaned entries.  The accumulator is (deleted_count, keys_to_remove,
blob paths already unlinked); an entry whose blob no longer exists still has
its key removed, and a _safe_unlink failure (unlinkOk false) raises, which
the per-item except catches before the key is recorded for removal. -/
def cleanStep (fs_exists unlinkOk : Path → Bool) (lfs_base : Path)
    (acc : Nat × List String × List Path) (kv : String × BlobEntry) :
    Nat × List String × List Path :=
  let sp := lfs_base ++ kv.2.storage_path
  if fs_exists sp && !(acc.2.2.contains sp) then
    if unlinkOk sp then (acc.1 + 1, acc.2.1 ++ [kv.1], acc.2.2 ++ [sp])
    else acc
  else (acc.1, acc.2.1 ++ [kv.1], acc.2.2)

/-- clean_repo (lfs.py lines 539-607): prune stale link paths from every
entry; entries left with no valid link are deletion candidates; deletion of
their blobs and removal of their manifest entries happens only with
confirmation (the no_confirm flag, or the operator answering yes, modelled
by userConfirms); the manifest is saved at the end on every control path.
Returns the manifest file content written by the final save, deleted_count,
and the list of blob paths actually deleted. -/
def clean_repo (fs_exists : Path → Bool) (unlinkOk : Path → Bool) (writeOk : Bool)
    (lfs_base : Path) (manifest0 : Manifest) (no_confirm userConfirms : Bool) :
    Option String × Nat × List Path :=
  let pruned := manifest0.map (fun kv => (kv.1, pruneEntry fs_exists kv.2))
  let cleaned := pruned.filter (fun kv => kv.2.link_paths.isEmpty)
  if cleaned.isEmpty then
    (save_manifest writeOk pruned, 0, [])
  else
    if no_confirm || userConfirms then
      let res := cleaned.foldl (cleanStep fs_exists unlinkOk lfs_base) (0, [], [])
      (save_manifest writeOk (pruned.filter (fun kv => !(res.2.1.contains kv.1))),
       res.1, res.2.2)
    else
      (save_manifest writeOk pruned, 0, [])

/-- The host-dependent outcomes one call to _safe_unlink can observe:
the platform, the returncodes of the three del commands tried on Windows
(true = returncode 0; a timeout or exception counts as false), whether the
Path.unlink fallback raises, and whether the path still exists at the final
check of lfs.py line 259. -/
structure UnlinkEnv where
  isWindows : Bool
  delCmdOk : List Bool
  unlinkRaises : Bool
  existsAfter : Bool
deriving DecidableEq

/-- _safe_unlink (lfs.py lines 206-260).  On Windows the del commands are
tried in order until one reports success, then Path.unlink as fallback; if
everything failed an exception is raised, and the outer except re-raises it
to the caller.  When no attempt raised, the final existence check only
prints a warning: the second component records whether that warning was
printed, and the function still returns normally. -/
def safe_unlink (env : UnlinkEnv) : Except String Unit × Bool :=
  let attempt : Except String Unit :=
    if env.isWindows then
      if env.delCmdOk.any (fun b => b) then Except.ok ()
      else if env.unlinkRaises then Except.error "all delete methods failed"
      else Except.ok ()
    else
      if env.unlinkRaises then Except.error "unlink failed" else Except.ok ()
  match attempt with
  | Except.error e => (Except.error e, false)
  | Except.ok _ => (Except.ok (), env.existsAfter)

theorem fsGet_fsSet_self (fs : FS) (p : Path) (c : Content) :
    fsGet (fsSet fs p c) p = some c := by
  induction fs with
  | nil => simp [fsGet, fsSet]
  | cons kv rest ih =>
    by_cases h : kv.1 == p
    · simp [fsGet, fsSet, h]
    · simp [fsGet, fsSet, h, ih]

theorem fsGet_fsSet_ne (fs : FS) (p q : Path) (c : Content) (h : q ≠ p) :
    fsGet (fsSet fs p c) q = fsGet fs q := by
  induction fs with
  | nil =>
    have hq : ¬ p = q := fun hh => h hh.symm
    simp [fsGet, fsSet, hq]
  | cons kv rest ih =>
    by_cases hk : kv.1 == p
    · have hq : ¬ ((p : Path) == q) = true := by
        simp only [beq_iff_eq]
        intro hh
        exact h hh.symm
      have hkq : ¬ (kv.1 == q) = true := by
        intro hh
        apply hq
        have h1 : kv.1 = p := by simpa using hk
        have h2 : kv.1 = q := by simpa using hh
        simp [← h1, h2]
      simp [fsGet, fsSet, hk, hq, hkq]
    · by_cases hkq : kv.1 == q
      · simp [fsGet, fsSet, hk, hkq]
      · simp [fsGet, fsSet, hk, hkq, ih]

theorem fsSet_of_fsGet_eq (fs : FS) (p : Path) (c : Content)
    (h : fsGet fs p = some c) : fsSet fs p c = fs := by
  induction fs with
  | nil => simp [fsGet] at h
  | cons kv rest ih =>
    by_cases hk : kv.1 == p
    · have h1 : kv.1 = p := by simpa using hk
      have h2 : kv.2 = c := by
        simp [fsGet, hk] at h
        exact h
      simp [fsSet, hk, ← h1, ← h2]
    · simp [fsGet, hk] at h
      simp [fsSet, hk, ih h]

theorem manifestHasKey_append_self (m : Manifest) (k : String) (e : BlobEntry) :
    manifestHasKey (m ++ [(k, e)]) k = true := by
  simp [manifestHasKey, List.any_append]

theorem manifestAddLink_append_fresh (m : Manifest) (k : String) (e : BlobEntry)
    (p : Path) (hm : manifestHasKey m k = false) :
    manifestAddLink (m ++ [(k, e)]) k p = m ++ [(k, addLink e p)] := by
  induction m with
  | nil => simp [manifestAddLink]
  | cons kv rest ih =>
    simp only [manifestHasKey, List.any_cons, Bool.or_eq_false_iff] at hm
    have ihm : manifestHasKey rest k = false := by
      simpa [manifestHasKey] using hm.2
    have h2 := ih ihm
    simp only [manifestAddLink] at h2 ⊢
    simp only [List.cons_append, List.map_cons, hm.1, Bool.false_eq_true, if_false]
    rw [h2]

theorem store_and_link_first (hashFn : Content → String) (lfs_base : Path)
    (fs : FS) (m0 : Manifest) (p : Path) (c : Content)
    (cat : String) (sp rel : Path) (key : String)
    (hcat : cat = get_size_category c.length)
    (hsp : sp = lfs_base ++ ["objects", cat, hashFn c])
    (hrel : rel = ["objects", cat, hashFn c])
    (hkey : key = "sha256:" ++ hashFn c)
    (h1 : fsGet fs p = some c)
    (hblob : fsGet fs sp = none)
    (hm : manifestHasKey m0 key = false) :
    store_and_link_file hashFn lfs_base true true fs m0 p
      = ⟨fsSet (fsSet fs sp c) p c,
         m0 ++ [(key, ⟨hashFn c, c.length, rel, [p], [p]⟩)], true, true⟩ := by
  subst hcat
  subst hsp
  subst hrel
  subst hkey
  simp only [store_and_link_file, h1, hblob, Option.isNone_none, Bool.not_true,
    Bool.and_false, Bool.false_eq_true, if_false, hm, if_true, fsGet_fsSet_self,
    manifestAddLink_append_fresh _ _ _ _ hm, addLink, memPath, List.any_nil,
    List.nil_append]

theorem store_and_link_dedup_hit (hashFn : Content → String) (lfs_base : Path)
    (fs : FS) (m0 : Manifest) (q : Path) (c : Content) (e : BlobEntry)
    (cat : String) (sp : Path) (key : String)
    (hcat : cat = get_size_category c.length)
    (hsp : sp = lfs_base ++ ["objects", cat, hashFn c])
    (hkey : key = "sha256:" ++ hashFn c)
    (hq : fsGet fs q = some c)
    (hblob : fsGet fs sp = some c)
    (hm : manifestHasKey m0 key = false) :
    store_and_link_file hashFn lfs_base true true fs (m0 ++ [(key, e)]) q
      = ⟨fsSet fs q c, m0 ++ [(key, addLink e q)], true, false⟩ := by
  subst hcat
  subst hsp
  subst hkey
  simp only [store_and_link_file, hq, hblob, Option.isNone_some, Bool.false_and,
    Bool.false_eq_true, if_false, manifestHasKey_append_self, if_true,
    manifestAddLink_append_fresh _ _ _ _ hm]

/-- C1: ingesting two distinct paths p1 and p2 holding byte-identical content
creates exactly one blob: the first call copies the content to the single
storage path sp derived from the fingerprint, the second call finds the blob
already present (stored_new = false) and copies nothing; the final manifest
has exactly one new entry, whose link_paths is [p1, p2] and whose
source_paths is [p1] only. -/
theorem claim_C1_two_sources_one_blob
    (hashFn : Content → String) (lfs_base : Path) (fs : FS) (m0 : Manifest)
    (p1 p2 : Path) (c : Content) (cat : String) (sp rel : Path) (key : String)
    (hcat : cat = get_size_category c.length)
    (hsp : sp = lfs_base ++ ["objects", cat, hashFn c])
    (hrel : rel = ["objects", cat, hashFn c])
    (hkey : key = "sha256:" ++ hashFn c)
    (h1 : fsGet fs p1 = some c) (h2 : fsGet fs p2 = some c)
    (hne : p1 ≠ p2) (hne1 : p1 ≠ sp) (hne2 : p2 ≠ sp)
    (hblob : fsGet fs sp = none)
    (hm : manifestHasKey m0 key = false) :
    store_and_link_file hashFn lfs_base true true fs m0 p1
      = ⟨fsSet (fsSet fs sp c) p1 c,
         m0 ++ [(key, ⟨hashFn c, c.length, rel, [p1], [p1]⟩)], true, true⟩
    ∧ store_and_link_file hashFn lfs_base true true
        (fsSet (fsSet fs sp c) p1 c)
        (m0 ++ [(key, ⟨hashFn c, c.length, rel, [p1], [p1]⟩)]) p2
      = ⟨fsSet (fsSet (fsSet fs sp c) p1 c) p2 c,
         m0 ++ [(key, ⟨hashFn c, c.length, rel, [p1], [p1, p2]⟩)], true, false⟩ := by
  constructor
  · exact store_and_link_first hashFn lfs_base fs m0 p1 c cat sp rel key
      hcat hsp hrel hkey h1 hblob hm
  · have hq2 : fsGet (fsSet (fsSet fs sp c) p1 c) p2 = some c := by
      rw [fsGet_fsSet_ne _ _ _ _ (by simpa using hne.symm),
        fsGet_fsSet_ne _ _ _ _ hne2, h2]
    have hb2 : fsGet (fsSet (fsSet fs sp c) p1 c) sp = some c := by
      rw [fsGet_fsSet_ne _ _ _ _ (fun hh => hne1 hh.symm), fsGet_fsSet_self]
    have := store_and_link_dedup_hit hashFn lfs_base
      (fsSet (fsSet fs sp c) p1 c) m0 p2 c
      ⟨hashFn c, c.length, rel, [p1], [p1]⟩ cat sp key hcat hsp hkey hq2 hb2 hm
    rw [this]
    have hadd : addLink ⟨hashFn c, c.length, rel, [p1], [p1]⟩ p2
        = ⟨hashFn c, c.length, rel, [p1], [p1, p2]⟩ := by
      have : ((p1 : Path) == p2) = false := by
        simp [beq_eq_false_iff_ne, hne]
      simp [addLink, memPath, this]
    rw [hadd]

/-- Witness for C1 at a concrete two-file configuration. -/
theorem claim_C1_two_sources_one_blob_witness :
    fsGet [(["u", "a"], [7]), (["u", "b"], [7])] ["u", "a"] = some [7]
    ∧ fsGet [(["u", "a"], [7]), (["u", "b"], [7])] ["u", "b"] = some [7]
    ∧ fsGet [(["u", "a"], [7]), (["u", "b"], [7])]
        ["base", "objects", "5G-above", "h0"] = none
    ∧ (store_and_link_file (fun _ => "h0") ["base"] true true
          [(["u", "a"], [7]), (["u", "b"], [7])] [] ["u", "a"]
        = ⟨fsSet (fsSet [(["u", "a"], [7]), (["u", "b"], [7])]
              ["base", "objects", "5G-above", "h0"] [7]) ["u", "a"] [7],
           [] ++ [("sha256:h0", ⟨"h0", List.length [7], ["objects", "5G-above", "h0"],
              [["u", "a"]], [["u", "a"]]⟩)], true, true⟩
      ∧ store_and_link_file (fun _ => "h0") ["base"] true true
          (fsSet (fsSet [(["u", "a"], [7]), (["u", "b"], [7])]
              ["base", "objects", "5G-above", "h0"] [7]) ["u", "a"] [7])
          ([] ++ [("sha256:h0", ⟨"h0", List.length [7], ["objects", "5G-above", "h0"],
              [["u", "a"]], [["u", "a"]]⟩)]) ["u", "b"]
        = ⟨fsSet (fsSet (fsSet [(["u", "a"], [7]), (["u", "b"], [7])]
              ["base", "objects", "5G-above", "h0"] [7]) ["u", "a"] [7]) ["u", "b"] [7],
           [] ++ [("sha256:h0", ⟨"h0", List.length [7], ["objects", "5G-above", "h0"],
              [["u", "a"]], [["u", "a"], ["u", "b"]]⟩)], true, false⟩) :=
  ⟨by decide, by decide, by decide,
   claim_C1_two_sources_one_blob (fun _ => "h0") ["base"]
     [(["u", "a"], [7]), (["u", "b"], [7])] [] ["u", "a"] ["u", "b"] [7]
     "5G-above" ["base", "objects", "5G-above", "h0"] ["objects", "5G-above", "h0"]
     "sha256:h0" (by decide) (by decide) (by decide) (by decide) (by decide)
     (by decide) (by decide) (by decide) (by decide) (by decide) (by decide)⟩

/-- C2: ingesting the same path twice against the same manifest is
idempotent: the second call finds the blob already stored (stored_new =
false, no second copy), leaves source_paths as the first call left it, does
not append a duplicate link path, and returns the filesystem and manifest
exactly as they stood after the first call. -/
theorem claim_C2_repeat_ingestion_idempotent
    (hashFn : Content → String) (lfs_base : Path) (fs : FS) (m0 : Manifest)
    (p : Path) (c : Content) (cat : String) (sp rel : Path) (key : String)
    (hcat : cat = get_size_category c.length)
    (hsp : sp = lfs_base ++ ["objects", cat, hashFn c])
    (hrel : rel = ["objects", cat, hashFn c])
    (hkey : key = "sha256:" ++ hashFn c)
    (h1 : fsGet fs p = some c)
    (hne1 : p ≠ sp)
    (hblob : fsGet fs sp = none)
    (hm : manifestHasKey m0 key = false) :
    store_and_link_file hashFn lfs_base true true fs m0 p
      = ⟨fsSet (fsSet fs sp c) p c,
         m0 ++ [(key, ⟨hashFn c, c.length, rel, [p], [p]⟩)], true, true⟩
    ∧ store_and_link_file hashFn lfs_base true true
        (fsSet (fsSet fs sp c) p c)
        (m0 ++ [(key, ⟨hashFn c, c.length, rel, [p], [p]⟩)]) p
      = ⟨fsSet (fsSet fs sp c) p c,
         m0 ++ [(key, ⟨hashFn c, c.length, rel, [p], [p]⟩)], true, false⟩ := by
  constructor
  · exact store_and_link_first hashFn lfs_base fs m0 p c cat sp rel key
      hcat hsp hrel hkey h1 hblob hm
  · have hq2 : fsGet (fsSet (fsSet fs sp c) p c) p = some c := fsGet_fsSet_self _ _ _
    have hb2 : fsGet (fsSet (fsSet fs sp c) p c) sp = some c := by
      rw [fsGet_fsSet_ne _ _ _ _ (fun hh => hne1 hh.symm), fsGet_fsSet_self]
    have hd := store_and_link_dedup_hit hashFn lfs_base
      (fsSet (fsSet fs sp c) p c) m0 p c
      ⟨hashFn c, c.length, rel, [p], [p]⟩ cat sp key hcat hsp hkey hq2 hb2 hm
    rw [hd]
    have hadd : addLink ⟨hashFn c, c.length, rel, [p], [p]⟩ p
        = ⟨hashFn c, c.length, rel, [p], [p]⟩ := by
      simp [addLink, memPath]
    rw [hadd, fsSet_of_fsGet_eq _ _ _ hq2]

/-- Witness for C2 at a concrete one-file configuration. -/
theorem claim_C2_repeat_ingestion_idempotent_witness :
    fsGet [(["u", "a"], [7])] ["u", "a"] = some [7]
    ∧ fsGet [(["u", "a"], [7])] ["base", "objects", "5G-above", "h0"] = none
    ∧ (store_and_link_file (fun _ => "h0") ["base"] true true
          [(["u", "a"], [7])] [] ["u", "a"]
        = ⟨fsSet (fsSet [(["u", "a"], [7])] ["base", "objects", "5G-above", "h0"] [7])
             ["u", "a"] [7],
           [] ++ [("sha256:h0", ⟨"h0", List.length [7], ["objects", "5G-above", "h0"],
              [["u", "a"]], [["u", "a"]]⟩)], true, true⟩
      ∧ store_and_link_file (fun _ => "h0") ["base"] true true
          (fsSet (fsSet [(["u", "a"], [7])] ["base", "objects", "5G-above", "h0"] [7])
             ["u", "a"] [7])
          ([] ++ [("sha256:h0", ⟨"h0", List.length [7], ["objects", "5G-above", "h0"],
              [["u", "a"]], [["u", "a"]]⟩)]) ["u", "a"]
        = ⟨fsSet (fsSet [(["u", "a"], [7])] ["base", "objects", "5G-above", "h0"] [7])
             ["u", "a"] [7],
           [] ++ [("sha256:h0", ⟨"h0", List.length [7], ["objects", "5G-above", "h0"],
              [["u", "a"]], [["u", "a"]]⟩)], true, false⟩) :=
  ⟨by decide, by decide,
   claim_C2_repeat_ingestion_idempotent (fun _ => "h0") ["base"]
     [(["u", "a"], [7])] [] ["u", "a"] [7]
     "5G-above" ["base", "objects", "5G-above", "h0"] ["objects", "5G-above", "h0"]
     "sha256:h0" (by decide) (by decide) (by decide) (by decide) (by decide)
     (by decide) (by decide) (by decide)⟩

/-- C4: for every byte size s at least 1 MiB, the six tiers of
size_categories contain s in exactly one half-open range, _get_size_category
returns that unique tier's name, and each boundary value (1MiB, 10MiB,
100MiB, 500MiB, 1GiB, 5GiB) is classified into the tier that opens at that
boundary. -/
theorem claim_C4_size_partition (s : Nat) (hs : 1*1024*1024 ≤ s) :
    (size_categories.filter (fun t => inCategory t s)).map (fun t => t.2.2)
        = [get_size_category s]
    ∧ get_size_category (1*1024*1024) = "1M-10M"
    ∧ get_size_category (10*1024*1024) = "10M-100M"
    ∧ get_size_category (100*1024*1024) = "100M-500M"
    ∧ get_size_category (500*1024*1024) = "500M-1G"
    ∧ get_size_category (1024*1024*1024) = "1G-5G"
    ∧ get_size_category (5*1024*1024*1024) = "5G-above" := by
  refine ⟨?_, by decide, by decide, by decide, by decide, by decide, by decide⟩
  rcases Nat.lt_or_ge s (10*1024*1024) with h2 | h2
  · have c1 : inCategory (1*1024*1024, some (10*1024*1024), "1M-10M") s = true := by
      simp [inCategory]; omega
    have c2 : inCategory (10*1024*1024, some (100*1024*1024), "10M-100M") s = false := by
      simp [inCategory]; omega
    have c3 : inCategory (100*1024*1024, some (500*1024*1024), "100M-500M") s = false := by
      simp [inCategory]; omega
    have c4 : inCategory (500*1024*1024, some (1024*1024*1024), "500M-1G") s = false := by
      simp [inCategory]; omega
    have c5 : inCategory (1024*1024*1024, some (5*1024*1024*1024), "1G-5G") s = false := by
      simp [inCategory]; omega
    have c6 : inCategory (5*1024*1024*1024, none, "5G-above") s = false := by
      simp [inCategory]; omega
    simp only [size_categories, get_size_category, List.find?_cons, List.filter_cons,
      c1, c2, c3, c4, c5, c6, List.filter_nil, List.map_cons, List.map_nil,
      cond_true, cond_false]
    simp
  rcases Nat.lt_or_ge s (100*1024*1024) with h3 | h3
  · have c1 : inCategory (1*1024*1024, some (10*1024*1024), "1M-10M") s = false := by
      simp [inCategory]; omega
    have c2 : inCategory (10*1024*1024, some (100*1024*1024), "10M-100M") s = true := by
      simp [inCategory]; omega
    have c3 : inCategory (100*1024*1024, some (500*1024*1024), "100M-500M") s = false := by
      simp [inCategory]; omega
    have c4 : inCategory (500*1024*1024, some (1024*1024*1024), "500M-1G") s = false := by
      simp [inCategory]; omega
    have c5 : inCategory (1024*1024*1024, some (5*1024*1024*1024), "1G-5G") s = false := by
      simp [inCategory]; omega
    have c6 : inCategory (5*1024*1024*1024, none, "5G-above") s = false := by
      simp [inCategory]; omega
    simp only [size_categories, get_size_category, List.find?_cons, List.filter_cons,
      c1, c2, c3, c4, c5, c6, List.filter_nil, List.map_cons, List.map_nil,
      cond_true, cond_false]
    simp
  rcases Nat.lt_or_ge s (500*1024*1024) with h4 | h4
  · have c1 : inCategory (1*1024*1024, some (10*1024*1024), "1M-10M") s = false := by
      simp [inCategory]; omega
    have c2 : inCategory (10*1024*1024, some (100*1024*1024), "10M-100M") s = false := by
      simp [inCategory]; omega
    have c3 : inCategory (100*1024*1024, some (500*1024*1024), "100M-500M") s = true := by
      simp [inCategory]; omega
    have c4 : inCategory (500*1024*1024, some (1024*1024*1024), "500M-1G") s = false := by
      simp [inCategory]; omega
    have c5 : inCategory (1024*1024*1024, some (5*1024*1024*1024), "1G-5G") s = false := by
      simp [inCategory]; omega
    have c6 : inCategory (5*1024*1024*1024, none, "5G-above") s = false := by
      simp [inCategory]; omega
    simp only [size_categories, get_size_category, List.find?_cons, List.filter_cons,
      c1, c2, c3, c4, c5, c6, List.filter_nil, List.map_cons, List.map_nil,
      cond_true, cond_false]
    simp
  rcases Nat.lt_or_ge s (1024*1024*1024) with h5 | h5
  · have c1 : inCategory (1*1024*1024, some (10*1024*1024), "1M-10M") s = false := by
      simp [inCategory]; omega
    have c2 : inCategory (10*1024*1024, some (100*1024*1024), "10M-100M") s = false := by
      simp [inCategory]; omega
    have c3 : inCategory (100*1024*1024, some (500*1024*1024), "100M-500M") s = false := by
      simp [inCategory]; omega
    have c4 : inCategory (500*1024*1024, some (1024*1024*1024), "500M-1G") s = true := by
      simp [inCategory]; omega
    have c5 : inCategory (1024*1024*1024, some (5*1024*1024*1024), "1G-5G") s = false := by
      simp [inCategory]; omega
    have c6 : inCategory (5*1024*1024*1024, none, "5G-above") s = false := by
      simp [inCategory]; omega
    simp only [size_categories, get_size_category, List.find?_cons, List.filter_cons,
      c1, c2, c3, c4, c5, c6, List.filter_nil, List.map_cons, List.map_nil,
      cond_true, cond_false]
    simp
  rcases Nat.lt_or_ge s (5*1024*1024*1024) with h6 | h6
  · have c1 : inCategory (1*1024*1024, some (10*1024*1024), "1M-10M") s = false := by
      simp [inCategory]; omega
    have c2 : inCategory (10*1024*1024, some (100*1024*1024), "10M-100M") s = false := by
      simp [inCategory]; omega
    have c3 : inCategory (100*1024*1024, some (500*1024*1024), "100M-500M") s = false := by
      simp [inCategory]; omega
    have c4 : inCategory (500*1024*1024, some (1024*1024*1024), "500M-1G") s = false := by
      simp [inCategory]; omega
    have c5 : inCategory (1024*1024*1024, some (5*1024*1024*1024), "1G-5G") s = true := by
      simp [inCategory]; omega
    have c6 : inCategory (5*1024*1024*1024, none, "5G-above") s = false := by
      simp [inCategory]; omega
    simp only [size_categories, get_size_category, List.find?_cons, List.filter_cons,
      c1, c2, c3, c4, c5, c6, List.filter_nil, List.map_cons, List.map_nil,
      cond_true, cond_false]
    simp
  · have c1 : inCategory (1*1024*1024, some (10*1024*1024), "1M-10M") s = false := by
      simp [inCategory]; omega
    have c2 : inCategory (10*1024*1024, some (100*1024*1024), "10M-100M") s = false := by
      simp [inCategory]; omega
    have c3 : inCategory (100*1024*1024, some (500*1024*1024), "100M-500M") s = false := by
      simp [inCategory]; omega
    have c4 : inCategory (500*1024*1024, some (1024*1024*1024), "500M-1G") s = false := by
      simp [inCategory]; omega
    have c5 : inCategory (1024*1024*1024, some (5*1024*1024*1024), "1G-5G") s = false := by
      simp [inCategory]; omega
    have c6 : inCategory (5*1024*1024*1024, none, "5G-above") s = true := by
      simp [inCategory]; omega
    simp only [size_categories, get_size_category, List.find?_cons, List.filter_cons,
      c1, c2, c3, c4, c5, c6, List.filter_nil, List.map_cons, List.map_nil,
      cond_true, cond_false]
    simp

/-- Witness for C4 at the concrete size 1 MiB. -/
theorem claim_C4_size_partition_witness :
    1*1024*1024 ≤ 1048576
    ∧ ((size_categories.filter (fun t => inCategory t 1048576)).map (fun t => t.2.2)
          = [get_size_category 1048576]
        ∧ get_size_category (1*1024*1024) = "1M-10M"
        ∧ get_size_category (10*1024*1024) = "10M-100M"
        ∧ get_size_category (100*1024*1024) = "100M-500M"
        ∧ get_size_category (500*1024*1024) = "500M-1G"
        ∧ get_size_category (1024*1024*1024) = "1G-5G"
        ∧ get_size_category (5*1024*1024*1024) = "5G-above") :=
  ⟨by decide, claim_C4_size_partition 1048576 (by decide)⟩

/-- C8: on the POSIX branch (the Windows branch consults the output of an
external dir subprocess, out of scope as a platform shim), scanning an
existing root returns exactly the entries that are regular files, are not
symlinks, have size at least min_size, and have no ancestor directory
(the scan root included) containing lfs_assets.json. -/
theorem claim_C8_scan_exact (hasManifest : Path → Bool)
    (winDirHasLink : Path → Bool) (entries : List ScanEntry) (min_size : Nat) :
    scan_large_files true hasManifest false winDirHasLink entries min_size
      = Except.ok ((entries.filter (fun e =>
          e.isFile && !e.isSymlink && decide (min_size ≤ e.size)
            && !((pathParents e.path).any hasManifest))).map ScanEntry.path) := by
  have hpred : ∀ e ∈ entries,
      scanKeep hasManifest false winDirHasLink min_size e
        = (e.isFile && !e.isSymlink && decide (min_size ≤ e.size)
            && !((pathParents e.path).any hasManifest)) := by
    intro e _
    cases hf : e.isFile <;> cases hs : e.isSymlink <;>
      cases hm : (pathParents e.path).any hasManifest <;>
      by_cases hsz : min_size ≤ e.size <;>
      simp [scanKeep, hf, hs, hm, hsz]
  rw [show scan_large_files true hasManifest false winDirHasLink entries min_size
      = Except.ok ((entries.filter
          (scanKeep hasManifest false winDirHasLink min_size)).map ScanEntry.path)
    from rfl]
  rw [List.filter_congr hpred]

theorem serializeManifest_ne_empty (m : Manifest) : serializeManifest m ≠ "" := by
  intro h
  have hl := congrArg String.length h
  simp only [serializeManifest, String.length_append] at hl
  rw [show ("" : String).length = 0 from rfl,
    show ("\x7b" : String).length = 1 from rfl,
    show ("\x7d" : String).length = 1 from rfl] at hl
  omega

/-- C5 fails on the code: _save_manifest opens the manifest file in w mode,
which truncates it before json.dump writes the new content, so a reader can
observe the empty file, which is neither the previous content nor the new
serialization.  Concrete input: previous content is the serialization of the
empty manifest, new manifest has one entry. -/
theorem claim_C5_counterexample :
    ¬ ∀ (old : String) (m : Manifest) (s : String),
        s ∈ save_manifest_file_states old m → s = old ∨ s = serializeManifest m := by
  intro h
  have hmid := h (serializeManifest [])
    [("sha256:h0", ⟨"h0", 1, ["objects", "5G-above", "h0"], [["u", "a"]], []⟩)] ""
    (by simp [save_manifest_file_states])
  rcases hmid with h1 | h1
  · exact absurd h1 (by decide)
  · exact absurd h1 (by decide)

/-- C5 amended: _save_manifest persists the manifest in place by truncating
the file and then writing the full serialization, with no temporary file or
rename; whenever the previous content was nonempty, the intermediate
truncated (empty) state is observable and is a partially-written state; the
final persisted state is the complete serialization. -/
theorem claim_C5_save_truncates_in_place (old : String) (m : Manifest)
    (hold : old ≠ "") :
    (∃ s ∈ save_manifest_file_states old m, s ≠ old ∧ s ≠ serializeManifest m)
    ∧ (save_manifest_file_states old m).getLast? = some (serializeManifest m)
    ∧ save_manifest true m = some (serializeManifest m) := by
  refine ⟨⟨"", by simp [save_manifest_file_states], fun hh => hold hh.symm,
    fun hh => serializeManifest_ne_empty m hh.symm⟩, rfl, rfl⟩

/-- Witness for the amended C5 at a concrete previous content. -/
theorem claim_C5_save_truncates_in_place_witness :
    ("\x7b\x7d" : String) ≠ ""
    ∧ ((∃ s ∈ save_manifest_file_states "\x7b\x7d" [], s ≠ "\x7b\x7d"
          ∧ s ≠ serializeManifest [])
      ∧ (save_manifest_file_states "\x7b\x7d" []).getLast?
          = some (serializeManifest [])
      ∧ save_manifest true [] = some (serializeManifest [])) :=
  ⟨by decide, claim_C5_save_truncates_in_place "\x7b\x7d" [] (by decide)⟩

/-- C6 fails on the code: _save_manifest catches every save failure and only
prints it, so process_files completes normally even when the final save
fails.  Concrete run: one candidate file is ingested successfully, the save
raises (writeOk = false), and process_files still returns normally with
nothing persisted instead of ending with the error. -/
theorem claim_C6_counterexample :
    ¬ ∀ (m0 : Manifest), ∃ e,
        process_files (fun _ => "h0") ["base"] (fun _ => true) (fun _ => true)
          false true (fun _ => false) false (fun _ => false)
          [⟨["u", "a"], true, false, 1⟩] 0 [(["u", "a"], [7])] m0
        = Except.error e := by
  intro h
  obtain ⟨e, he⟩ := h []
  rw [show process_files (fun _ => "h0") ["base"] (fun _ => true) (fun _ => true)
        false true (fun _ => false) false (fun _ => false)
        [⟨["u", "a"], true, false, 1⟩] 0 [(["u", "a"], [7])] []
      = Except.ok ([(["u", "a"], [7]),
          (["base", "objects", "5G-above", "h0"], [7])], none, 1, 1) from rfl] at he
  exact absurd he (by simp)

/-- C6 amended: a failure of the final manifest save is absorbed inside
_save_manifest (logged, not re-raised): process_files still returns normally
(with no manifest content persisted), and clean_repo likewise persists
nothing yet completes; neither run ends with the save error. -/
theorem claim_C6_save_failure_absorbed
    (hashFn : Content → String) (lfs_base : Path) (copyOk linkOk : Path → Bool)
    (hasManifest : Path → Bool) (isWindows : Bool) (winDirHasLink : Path → Bool)
    (entries : List ScanEntry) (min_size : Nat) (fs : FS) (manifest0 : Manifest)
    (fs_exists unlinkOk : Path → Bool) (no_confirm userConfirms : Bool) :
    (∃ (fsr : FS) (n t : Nat),
        process_files hashFn lfs_base copyOk linkOk false true hasManifest
          isWindows winDirHasLink entries min_size fs manifest0
        = Except.ok (fsr, none, n, t))
    ∧ (clean_repo fs_exists unlinkOk false lfs_base manifest0
        no_confirm userConfirms).1 = none := by
  constructor
  · have hP : process_files hashFn lfs_base copyOk linkOk false true hasManifest
          isWindows winDirHasLink entries min_size fs manifest0
        = (if ((entries.filter
              (scanKeep hasManifest isWindows winDirHasLink min_size)).map
                ScanEntry.path).isEmpty
           then Except.ok (fs, none, 0, 0)
           else
             let r := ((entries.filter
                 (scanKeep hasManifest isWindows winDirHasLink min_size)).map
                   ScanEntry.path).foldl (fun acc fp =>
                 let s := store_and_link_file hashFn lfs_base (copyOk fp)
                   (linkOk fp) acc.1 acc.2.1 fp
                 (s.fs, s.manifest, acc.2.2 + if s.ok then 1 else 0))
               ((fs, manifest0, 0) : FS × Manifest × Nat)
             Except.ok (r.1, save_manifest false r.2.1, r.2.2,
               ((entries.filter
                 (scanKeep hasManifest isWindows winDirHasLink min_size)).map
                   ScanEntry.path).length)) := rfl
    rw [hP]
    by_cases hE : ((entries.filter
        (scanKeep hasManifest isWindows winDirHasLink min_size)).map ScanEntry.path).isEmpty
    · rw [if_pos hE]
      exact ⟨fs, 0, 0, rfl⟩
    · rw [if_neg hE]
      exact ⟨_, _, _, rfl⟩
  · simp only [clean_repo]
    split
    · rfl
    · split
      · rfl
      · rfl

/-- C7 fails on the code: when a delete attempt reports success but the path
still exists at the final check (lfs.py line 259), _safe_unlink only prints
a warning and returns normally instead of raising.  Concrete input: Windows,
first del command returns 0, the path still exists afterwards. -/
theorem claim_C7_counterexample :
    ¬ ∀ env : UnlinkEnv,
        (safe_unlink env).1 = Except.ok () → env.existsAfter = false := by
  intro h
  have hx := h ⟨true, [true, false, false], false, true⟩ rfl
  exact absurd hx (by decide)

/-- C7 amended: _safe_unlink raises exactly when every deletion attempt
itself failed (on Windows: no del command returned 0 and the Path.unlink
fallback raised; on POSIX: Path.unlink raised); the final existence check
only prints a warning (second component) when the path survives a
nominally successful attempt, and the call still returns success. -/
theorem claim_C7_unlink_raises_iff (env : UnlinkEnv) :
    ((∃ e, (safe_unlink env).1 = Except.error e)
      ↔ ((env.isWindows = true ∧ env.delCmdOk.any (fun b => b) = false
            ∧ env.unlinkRaises = true)
        ∨ (env.isWindows = false ∧ env.unlinkRaises = true)))
    ∧ ((safe_unlink env).2 = true
      ↔ ((safe_unlink env).1 = Except.ok () ∧ env.existsAfter = true)) := by
  obtain ⟨w, d, u, ex⟩ := env
  cases w <;> cases u <;> cases ex <;> cases hd : d.any (fun b => b) <;>
    simp [safe_unlink, hd]

theorem store_and_link_first_linkfail (hashFn : Content → String) (lfs_base : Path)
    (fs : FS) (m0 : Manifest) (p : Path) (c : Content)
    (cat : String) (sp rel : Path) (key : String)
    (hcat : cat = get_size_category c.length)
    (hsp : sp = lfs_base ++ ["objects", cat, hashFn c])
    (hrel : rel = ["objects", cat, hashFn c])
    (hkey : key = "sha256:" ++ hashFn c)
    (h1 : fsGet fs p = some c)
    (hblob : fsGet fs sp = none)
    (hm : manifestHasKey m0 key = false) :
    store_and_link_file hashFn lfs_base true false fs m0 p
      = ⟨fsSet fs sp c, m0 ++ [(key, ⟨hashFn c, c.length, rel, [p], []⟩)],
         false, true⟩ := by
  subst hcat
  subst hsp
  subst hrel
  subst hkey
  simp only [store_and_link_file, h1, hblob, Option.isNone_none, Bool.not_true,
    Bool.and_false, Bool.false_eq_true, if_false, hm, if_true]

/-- C9: when a previously-unseen fingerprint is ingested and _safe_link then
fails, store_and_link_file returns failure but the manifest entry it created
stays in the shared in-memory manifest with the failed path absent (here:
link_paths empty), the blob stays on disk, and process_files persists that
entry in the final save: the saved manifest serializes the entry with empty
link_paths while the processed count stays 0 of 1. -/
theorem claim_C9_no_rollback_on_link_failure
    (hashFn : Content → String) (lfs_base : Path) (copyOk linkOk : Path → Bool)
    (hasManifest winDirHasLink : Path → Bool)
    (fs : FS) (m0 : Manifest) (p : Path) (c : Content) (min_size : Nat)
    (cat : String) (sp rel : Path) (key : String)
    (hcat : cat = get_size_category c.length)
    (hsp : sp = lfs_base ++ ["objects", cat, hashFn c])
    (hrel : rel = ["objects", cat, hashFn c])
    (hkey : key = "sha256:" ++ hashFn c)
    (h1 : fsGet fs p = some c)
    (hblob : fsGet fs sp = none)
    (hm : manifestHasKey m0 key = false)
    (hpar : (pathParents p).any hasManifest = false)
    (hmin : min_size ≤ c.length)
    (hcopy : copyOk p = true)
    (hlink : linkOk p = false) :
    process_files hashFn lfs_base copyOk linkOk true true hasManifest false
        winDirHasLink [⟨p, true, false, c.length⟩] min_size fs m0
      = Except.ok (fsSet fs sp c,
          some (serializeManifest
            (m0 ++ [(key, ⟨hashFn c, c.length, rel, [p], []⟩)])),
          0, 1) := by
  have hscan : scan_large_files true hasManifest false winDirHasLink
      [⟨p, true, false, c.length⟩] min_size = Except.ok [p] := by
    simp [scan_large_files, scanKeep, hpar, hmin]
  simp only [process_files, hscan, List.isEmpty_cons, Bool.false_eq_true, if_false,
    List.foldl_cons, List.foldl_nil, hcopy, hlink]
  rw [store_and_link_first_linkfail hashFn lfs_base fs m0 p c cat sp rel key
    hcat hsp hrel hkey h1 hblob hm]
  simp [save_manifest, save_manifest_attempt]

/-- Witness for C9 at a concrete one-file configuration whose link step fails. -/
theorem claim_C9_no_rollback_on_link_failure_witness :
    fsGet [(["u", "a"], [7])] ["u", "a"] = some [7]
    ∧ fsGet [(["u", "a"], [7])] ["base", "objects", "5G-above", "h0"] = none
    ∧ (pathParents ["u", "a"]).any (fun _ => false) = false
    ∧ process_files (fun _ => "h0") ["base"] (fun _ => true) (fun _ => false)
        true true (fun _ => false) false (fun _ => false)
        [⟨["u", "a"], true, false, List.length [7]⟩] 0 [(["u", "a"], [7])] []
      = Except.ok (fsSet [(["u", "a"], [7])] ["base", "objects", "5G-above", "h0"] [7],
          some (serializeManifest
            ([] ++ [("sha256:h0", ⟨"h0", List.length [7], ["objects", "5G-above", "h0"],
                [["u", "a"]], []⟩)])),
          0, 1) :=
  ⟨by decide, by decide, by decide,
   claim_C9_no_rollback_on_link_failure (fun _ => "h0") ["base"]
     (fun _ => true) (fun _ => false) (fun _ => false) (fun _ => false)
     [(["u", "a"], [7])] [] ["u", "a"] [7] 0
     "5G-above" ["base", "objects", "5G-above", "h0"] ["objects", "5G-above", "h0"]
     "sha256:h0" (by decide) (by decide) (by decide) (by decide) (by decide)
     (by decide) (by decide) (by decide) (by decide) (by decide) (by decide)⟩

/-- C10: with the operator declining deletion (no_confirm and the answer
both false), clean_repo still prunes the stale link paths of every entry and
still persists the pruned manifest; no blob is deleted and no entry removed.
Confirmation gates only the deletion phase. -/
theorem claim_C10_prune_and_save_unconditional
    (fs_exists unlinkOk : Path → Bool) (lfs_base : Path) (manifest0 : Manifest) :
    clean_repo fs_exists unlinkOk true lfs_base manifest0 false false
      = (some (serializeManifest
          (manifest0.map (fun kv => (kv.1, pruneEntry fs_exists kv.2)))), 0, []) := by
  simp only [clean_repo]
  split
  · rfl
  · simp [save_manifest, save_manifest_attempt]

theorem contains_false_of_not_mem {α : Type} [BEq α] [LawfulBEq α]
    {l : List α} {a : α} (h : a ∉ l) : l.contains a = false := by
  cases hc : l.contains a
  · rfl
  · exact absurd (List.elem_iff.mp hc) h

theorem cleanStep_foldl_all (fs_exists unlinkOk : Path → Bool) (lfs_base : Path) :
    ∀ (l : Manifest) (n : Nat) (ks : List String) (rs : List Path),
      (∀ kv ∈ l, fs_exists (lfs_base ++ kv.2.storage_path) = true) →
      (∀ kv ∈ l, unlinkOk (lfs_base ++ kv.2.storage_path) = true) →
      (l.map (fun kv => lfs_base ++ kv.2.storage_path)).Nodup →
      (∀ kv ∈ l, (lfs_base ++ kv.2.storage_path) ∉ rs) →
      l.foldl (cleanStep fs_exists unlinkOk lfs_base) (n, ks, rs)
        = (n + l.length, ks ++ l.map Prod.fst,
           rs ++ l.map (fun kv => lfs_base ++ kv.2.storage_path)) := by
  intro l
  induction l with
  | nil =>
    intro n ks rs _ _ _ _
    simp
  | cons kv rest ih =>
    intro n ks rs hex hun hnd hni
    have h1 := hex kv (List.mem_cons_self kv rest)
    have h2 := hun kv (List.mem_cons_self kv rest)
    have h3 : lfs_base ++ kv.2.storage_path ∉ rs := hni kv (List.mem_cons_self kv rest)
    obtain ⟨hhd, hnd2⟩ := List.nodup_cons.mp (by simpa only [List.map_cons] using hnd)
    have hni2 : ∀ kv' ∈ rest,
        (lfs_base ++ kv'.2.storage_path) ∉ (rs ++ [lfs_base ++ kv.2.storage_path]) := by
      intro kv' h hmem
      rcases List.mem_append.mp hmem with hA | hA
      · exact hni kv' (List.mem_cons_of_mem _ h) hA
      · have heq : lfs_base ++ kv'.2.storage_path = lfs_base ++ kv.2.storage_path := by
          simpa using hA
        apply hhd
        rw [← heq]
        exact List.mem_map_of_mem _ h
    rw [List.foldl_cons]
    rw [show cleanStep fs_exists unlinkOk lfs_base (n, ks, rs) kv
        = (n + 1, ks ++ [kv.1], rs ++ [lfs_base ++ kv.2.storage_path]) from by
      simp [cleanStep, h1, h2, h3]]
    rw [ih (n+1) (ks ++ [kv.1]) (rs ++ [lfs_base ++ kv.2.storage_path])
      (fun kv' h => hex kv' (List.mem_cons_of_mem _ h))
      (fun kv' h => hun kv' (List.mem_cons_of_mem _ h))
      hnd2 hni2]
    simp only [Prod.mk.injEq, List.map_cons, List.length_cons]
    refine ⟨by omega, by simp, by simp⟩

theorem eq_of_mem_nodup_keys :
    ∀ (l : Manifest), (l.map Prod.fst).Nodup →
      ∀ {a b : String × BlobEntry}, a ∈ l → b ∈ l → a.1 = b.1 → a = b := by
  intro l
  induction l with
  | nil =>
    intro _ a b ha _ _
    cases ha
  | cons kv rest ih =>
    intro h a b ha hb hk
    obtain ⟨hhd, hnd2⟩ := List.nodup_cons.mp (by simpa only [List.map_cons] using h)
    rcases List.mem_cons.mp ha with ha1 | ha1 <;> rcases List.mem_cons.mp hb with hb1 | hb1
    · rw [ha1, hb1]
    · exfalso
      apply hhd
      rw [ha1] at hk
      rw [hk]
      exact List.mem_map_of_mem Prod.fst hb1
    · exfalso
      apply hhd
      rw [hb1] at hk
      rw [← hk]
      exact List.mem_map_of_mem Prod.fst ha1
    · exact ih hnd2 ha1 hb1 hk

theorem contains_filter_map_fst (l : Manifest) (P : String × BlobEntry → Bool)
    (hnd : (l.map Prod.fst).Nodup) {kv : String × BlobEntry} (hkv : kv ∈ l) :
    ((l.filter P).map Prod.fst).contains kv.1 = P kv := by
  cases hP : P kv
  · cases hc : ((l.filter P).map Prod.fst).contains kv.1
    · rfl
    · exfalso
      have hm := List.elem_iff.mp hc
      rcases List.mem_map.mp hm with ⟨x, hx, hfx⟩
      rcases List.mem_filter.mp hx with ⟨hxl, hPx⟩
      rw [eq_of_mem_nodup_keys l hnd hxl hkv hfx] at hPx
      rw [hP] at hPx
      cases hPx
  · apply List.elem_iff.mpr
    exact List.mem_map_of_mem Prod.fst (List.mem_filter.mpr ⟨hkv, hP⟩)

/-- C3: with deletion confirmed (no_confirm) and deletion itself succeeding,
clean_repo removes a blob and its manifest entry exactly when none of the
entry's recorded link paths still exists: the saved manifest retains
precisely the entries whose pruned link_paths is nonempty (reduced to the
surviving paths by pruneEntry), the deleted count is the number of entries
with no surviving link, and the deleted blob paths are exactly those
entries' storage paths.  Distinct keys and distinct storage paths are the
manifest well-formedness Python dicts and fingerprint-derived paths give. -/
theorem claim_C3_collect_removes_iff_no_links
    (fs_exists unlinkOk : Path → Bool) (lfs_base : Path) (manifest0 : Manifest)
    (userConfirms : Bool) (pruned cleaned : Manifest)
    (hpr : pruned = manifest0.map (fun kv => (kv.1, pruneEntry fs_exists kv.2)))
    (hcl : cleaned = pruned.filter (fun kv => kv.2.link_paths.isEmpty))
    (hkeys : (manifest0.map Prod.fst).Nodup)
    (hspnd : (manifest0.map (fun kv => lfs_base ++ kv.2.storage_path)).Nodup)
    (hex : ∀ kv ∈ manifest0, fs_exists (lfs_base ++ kv.2.storage_path) = true)
    (hun : ∀ kv ∈ manifest0, unlinkOk (lfs_base ++ kv.2.storage_path) = true) :
    clean_repo fs_exists unlinkOk true lfs_base manifest0 true userConfirms
      = (some (serializeManifest (pruned.filter (fun kv => !kv.2.link_paths.isEmpty))),
         cleaned.length,
         cleaned.map (fun kv => lfs_base ++ kv.2.storage_path)) := by
  have hkeys2 : (pruned.map Prod.fst).Nodup := by
    rw [hpr, List.map_map]
    exact hkeys
  have hsp2 : (pruned.map (fun kv => lfs_base ++ kv.2.storage_path)).Nodup := by
    rw [hpr, List.map_map]
    exact hspnd
  have hex2 : ∀ kv ∈ cleaned, fs_exists (lfs_base ++ kv.2.storage_path) = true := by
    intro kv h
    rw [hcl] at h
    have h2 := (List.mem_filter.mp h).1
    rw [hpr] at h2
    rcases List.mem_map.mp h2 with ⟨kv0, h0, hk0⟩
    rw [← hk0]
    exact hex kv0 h0
  have hun2 : ∀ kv ∈ cleaned, unlinkOk (lfs_base ++ kv.2.storage_path) = true := by
    intro kv h
    rw [hcl] at h
    have h2 := (List.mem_filter.mp h).1
    rw [hpr] at h2
    rcases List.mem_map.mp h2 with ⟨kv0, h0, hk0⟩
    rw [← hk0]
    exact hun kv0 h0
  have hspC : (cleaned.map (fun kv => lfs_base ++ kv.2.storage_path)).Nodup := by
    rw [hcl]
    exact List.Nodup.sublist (List.Sublist.map _ (List.filter_sublist _)) hsp2
  have hunf : clean_repo fs_exists unlinkOk true lfs_base manifest0 true userConfirms
      = (if cleaned.isEmpty then ((save_manifest true pruned, 0, []) : Option String × Nat × List Path)
         else if true || userConfirms then
           (save_manifest true (pruned.filter (fun kv =>
              !(((cleaned.foldl (cleanStep fs_exists unlinkOk lfs_base)
                  (0, [], [])).2.1).contains kv.1))),
            (cleaned.foldl (cleanStep fs_exists unlinkOk lfs_base) (0, [], [])).1,
            (cleaned.foldl (cleanStep fs_exists unlinkOk lfs_base) (0, [], [])).2.2)
         else (save_manifest true pruned, 0, [])) := by
    rw [hcl, hpr]
    rfl
  rw [hunf]
  by_cases hE : cleaned.isEmpty
  · rw [if_pos hE]
    have hnil : cleaned = [] := List.isEmpty_eq_true.mp hE
    have hnil2 : pruned.filter (fun kv => kv.2.link_paths.isEmpty) = [] := by
      rw [← hcl]
      exact hnil
    have hall : ∀ kv ∈ pruned, (!kv.2.link_paths.isEmpty) = true := by
      intro kv h
      have hne := List.filter_eq_nil_iff.mp hnil2 kv h
      cases hx : kv.2.link_paths.isEmpty
      · rfl
      · exact absurd hx hne
    have hfl : pruned.filter (fun kv => !kv.2.link_paths.isEmpty) = pruned :=
      List.filter_eq_self.mpr hall
    rw [hnil, hfl]
    simp [save_manifest, save_manifest_attempt]
  · rw [if_neg hE]
    rw [if_pos (show (true || userConfirms) = true by simp)]
    rw [cleanStep_foldl_all fs_exists unlinkOk lfs_base cleaned 0 [] [] hex2 hun2 hspC
      (fun kv _ hmem => List.not_mem_nil _ hmem)]
    simp only [Nat.zero_add, List.nil_append]
    have hcong : pruned.filter (fun kv => !((cleaned.map Prod.fst).contains kv.1))
        = pruned.filter (fun kv => !kv.2.link_paths.isEmpty) := by
      apply List.filter_congr
      intro kv h
      rw [hcl]
      rw [contains_filter_map_fst pruned (fun kv => kv.2.link_paths.isEmpty) hkeys2 h]
    rw [hcong]
    simp [save_manifest, save_manifest_attempt]

/-- Witness for C3 at a concrete two-entry manifest: the first entry keeps
one surviving link, the second entry has only a dead link. -/
theorem claim_C3_collect_removes_iff_no_links_witness :
    (([("sha256:h1", (⟨"h1", 1, ["objects", "5G-above", "h1"], [["u", "a"]],
          [["u", "a"]]⟩ : BlobEntry)),
       ("sha256:h2", ⟨"h2", 1, ["objects", "5G-above", "h2"], [["u", "b"]], []⟩)]
        : Manifest)
      = ([("sha256:h1", ⟨"h1", 1, ["objects", "5G-above", "h1"], [["u", "a"]],
          [["u", "a"], ["u", "gone"]]⟩),
          ("sha256:h2", ⟨"h2", 1, ["objects", "5G-above", "h2"], [["u", "b"]],
          [["u", "gone2"]]⟩)] : Manifest).map
        (fun kv => (kv.1, pruneEntry (fun p => p == ["u", "a"]
          || p == ["L", "objects", "5G-above", "h1"]
          || p == ["L", "objects", "5G-above", "h2"]) kv.2)))
    ∧ clean_repo (fun p => p == ["u", "a"] || p == ["L", "objects", "5G-above", "h1"]
          || p == ["L", "objects", "5G-above", "h2"]) (fun _ => true) true ["L"]
        [("sha256:h1", ⟨"h1", 1, ["objects", "5G-above", "h1"], [["u", "a"]],
            [["u", "a"], ["u", "gone"]]⟩),
         ("sha256:h2", ⟨"h2", 1, ["objects", "5G-above", "h2"], [["u", "b"]],
            [["u", "gone2"]]⟩)] true false
      = (some (serializeManifest
          (([("sha256:h1", (⟨"h1", 1, ["objects", "5G-above", "h1"], [["u", "a"]],
                [["u", "a"]]⟩ : BlobEntry)),
             ("sha256:h2", ⟨"h2", 1, ["objects", "5G-above", "h2"], [["u", "b"]], []⟩)]
            : Manifest).filter (fun kv => !kv.2.link_paths.isEmpty))),
         ([("sha256:h2", (⟨"h2", 1, ["objects", "5G-above", "h2"], [["u", "b"]], []⟩
             : BlobEntry))] : Manifest).length,
         ([("sha256:h2", (⟨"h2", 1, ["objects", "5G-above", "h2"], [["u", "b"]], []⟩
             : BlobEntry))] : Manifest).map
           (fun kv => ["L"] ++ kv.2.storage_path)) :=
  ⟨by decide,
   claim_C3_collect_removes_iff_no_links
     (fun p => p == ["u", "a"] || p == ["L", "objects", "5G-above", "h1"]
       || p == ["L", "objects", "5G-above", "h2"]) (fun _ => true) ["L"]
     [("sha256:h1", ⟨"h1", 1, ["objects", "5G-above", "h1"], [["u", "a"]],
         [["u", "a"], ["u", "gone"]]⟩),
      ("sha256:h2", ⟨"h2", 1, ["objects", "5G-above", "h2"], [["u", "b"]],
         [["u", "gone2"]]⟩)] false
     [("sha256:h1", ⟨"h1", 1, ["objects", "5G-above", "h1"], [["u", "a"]],
         [["u", "a"]]⟩),
      ("sha256:h2", ⟨"h2", 1, ["objects", "5G-above", "h2"], [["u", "b"]], []⟩)]
     [("sha256:h2", ⟨"h2", 1, ["objects", "5G-above", "h2"], [["u", "b"]], []⟩)]
     (by decide) (by decide) (by decide) (by decide) (by decide) (by decide)⟩

end LFS
